import Mathlib

/-!
Formal model of the cwc compositor's resource-lifecycle core: shared-memory
pool and buffer management, surface attach/commit, client cascade destruction,
output configuration, and the server bootstrap / allocation helpers.

The repository ships full implementations only for the bootstrap and
allocation helpers (src/src/main.c); the SHM, surface, output and client
subsystems are present as declarations (src/include/shm.h, compositor.h,
output.h, cwc.h) whose behaviour is specified in the design document.
Definitions for those subsystems are therefore modelled from the spec, as
marked in their doc comments; definitions for main.c are translated from the
source.
-/

namespace Cwc

/-- Pixel-format codes, as in the wire protocol: ARGB8888 is 0, XRGB8888 is 1
(uint32_t format). -/
def WL_SHM_FORMAT_ARGB8888 : Nat := 0

/-- XRGB8888 wire code. -/
def WL_SHM_FORMAT_XRGB8888 : Nat := 1

/-- Modelled from the spec: `cwc_shm_format_supported` is declared at
include/shm.h:78 but its implementation is absent from the repository. The
spec's supported set is the mandatory wl_shm pair ARGB8888 / XRGB8888 (the
spec's worked scenario uses ARGB8888 with bpp 4). -/
def cwc_shm_format_supported (format : Nat) : Bool :=
  format == WL_SHM_FORMAT_ARGB8888 || format == WL_SHM_FORMAT_XRGB8888

/-- Modelled from the spec: `bytes_per_pixel(format)`, used in the buffer
validation rule `stride >= width * bytes_per_pixel(format)`; both supported
formats are 4 bytes per pixel. -/
def bytes_per_pixel (format : Nat) : Nat :=
  if format == WL_SHM_FORMAT_ARGB8888 || format == WL_SHM_FORMAT_XRGB8888 then 4 else 0

/-- Typed errors of the SHM / registry layer, from the spec's error taxonomy
(`InvalidSize`, `MapFailed`, `InvalidResize`, `PoolCorruption`,
`UnsupportedFormat`, `OutOfBounds`, `QuotaExceeded`, stale-object protocol
errors, and a stride violation). -/
inductive ShmError where
  | invalidSize
  | mapFailed
  | invalidResize
  | poolCorruption
  | unsupportedFormat
  | invalidStride
  | outOfBounds
  | quotaExceeded
  | staleObject
  deriving DecidableEq, Repr

/-- Modelled from the spec: Memory Guard
`checked_region(offset, length, container_size) -> Result<Range, OutOfBounds>`
(its implementation is absent from the repository). A region is in bounds
when its offset and length are nonnegative and it ends inside the container;
anything else is `OutOfBounds`. Arithmetic is exact (the guard's checked
add/mul never silently overflow). -/
def checked_region (offset length : Int) (container_size : Nat) : Except ShmError (Int × Int) :=
  if 0 ≤ offset ∧ 0 ≤ length ∧ offset + length ≤ (container_size : Int) then
    .ok (offset, offset + length)
  else
    .error .outOfBounds

/-- Modelled from the spec: `cwc_shm_buffer_validate` (declared at
include/shm.h:80-81, implementation absent). Checks, in order: the format is
supported (`UnsupportedFormat` otherwise), the stride covers one row
(`stride >= width * bytes_per_pixel(format)`), and the byte region
`[offset, offset + stride*height)` lies inside the pool via the Memory
Guard's `checked_region`. -/
def cwc_shm_buffer_validate (offset width height stride : Int) (format : Nat)
    (pool_size : Nat) : Except ShmError Unit :=
  if ¬ cwc_shm_format_supported format then
    .error .unsupportedFormat
  else if stride < width * (bytes_per_pixel format : Int) then
    .error .invalidStride
  else
    match checked_region offset (stride * height) pool_size with
    | .ok _ => .ok ()
    | .error e => .error e

/-- SHM buffer record, after struct cwc_shm_buffer (include/shm.h:26-40):
offset/width/height/stride are int32_t, format uint32_t, plus the `busy`
flag and a deferred-destruction mark (the spec's `destroy_buffer` on a busy
buffer "marks for deferred destruction"). -/
structure ShmBuffer where
  id : Nat
  poolId : Nat
  offset : Int
  width : Int
  height : Int
  stride : Int
  format : Nat
  busy : Bool
  pendingDestroy : Bool
  deriving DecidableEq, Repr

/-- SHM pool record, after struct cwc_shm_pool (include/shm.h:7-23): byte
size, reference count (`int ref_count`), a mapped flag for the memory
mapping, and a deferred-destruction mark (the spec's "destroyed when the
client destroys it AND its reference count reaches zero"). -/
structure ShmPool where
  id : Nat
  size : Nat
  refCount : Int
  pendingDestroy : Bool
  mapped : Bool
  deriving DecidableEq, Repr

/-- State of the SHM subsystem: the live pools, the live (not yet destroyed)
buffers, and a fresh-id counter for newly created objects. -/
structure ShmState where
  pools : List ShmPool
  buffers : List ShmBuffer
  nextId : Nat
  deriving DecidableEq, Repr

/-- The empty SHM subsystem state. -/
def shmInit : ShmState := ⟨[], [], 0⟩

/-- CWC_SHM_MAX_POOL_SIZE (include/shm.h:51): 64 MiB. -/
def CWC_SHM_MAX_POOL_SIZE : Nat := 64 * 1024 * 1024

/-- CWC_SHM_MAX_POOLS_PER_CLIENT (include/shm.h:52). -/
def CWC_SHM_MAX_POOLS_PER_CLIENT : Nat := 10

/-- Modelled from the spec: `cwc_shm_pool_validate_size` (declared at
include/shm.h:79, implementation absent); a declared size is valid when it is
positive and at most the 64 MiB ceiling. -/
def cwc_shm_pool_validate_size (size : Int) : Bool :=
  0 < size && size ≤ (CWC_SHM_MAX_POOL_SIZE : Int)

/-- Modelled from the spec: `cwc_shm_pool_create` (declared at
include/shm.h:62-63, implementation absent). Rejects an invalid declared size
with `InvalidSize`, enforces the per-client pool quota
(`cwc_shm_check_client_limits`), maps the descriptor — `mapOk` stands for the
outcome of the external mmap call, `MapFailed` when it fails — and on success
returns the new pool together with the incremented client pool count. -/
def cwc_shm_pool_create (clientPoolCount : Nat) (size : Int) (mapOk : Bool)
    (freshId : Nat) : Except ShmError (ShmPool × Nat) :=
  if ¬ cwc_shm_pool_validate_size size then
    .error .invalidSize
  else if CWC_SHM_MAX_POOLS_PER_CLIENT ≤ clientPoolCount then
    .error .quotaExceeded
  else if ¬ mapOk then
    .error .mapFailed
  else
    .ok (⟨freshId, size.toNat, 0, false, true⟩, clientPoolCount + 1)

/-- Modelled from the spec: `cwc_shm_buffer_create` (declared at
include/shm.h:71-73, implementation absent). Looks the pool up, runs
`cwc_shm_buffer_validate` against the pool's current size, and on success
adds the buffer and increments the pool's reference count. -/
def cwc_shm_buffer_create (s : ShmState) (pid : Nat)
    (offset width height stride : Int) (format : Nat) :
    Except ShmError (ShmState × Nat) :=
  match s.pools.find? (fun q => q.id == pid) with
  | none => .error .staleObject
  | some p =>
    match cwc_shm_buffer_validate offset width height stride format p.size with
    | .error e => .error e
    | .ok _ =>
      .ok ({ pools := s.pools.map (fun q =>
               if q.id == pid then { q with refCount := q.refCount + 1 } else q),
             buffers := ⟨s.nextId, pid, offset, width, height, stride, format,
                         false, false⟩ :: s.buffers,
             nextId := s.nextId + 1 }, s.nextId)

/-- Modelled from the spec: releasing one pool reference. Decrements the
pool's `ref_count`; when a deferred pool destruction is pending and the count
has reached zero, the destruction completes now (the pool is unmapped and
removed). -/
def poolUnref (s : ShmState) (pid : Nat) : ShmState :=
  let pools := s.pools.map (fun q =>
    if q.id == pid then { q with refCount := q.refCount - 1 } else q)
  { s with pools := pools.filter (fun q =>
      !(q.id == pid && q.pendingDestroy && q.refCount == 0)) }

/-- Removing a buffer from the state and releasing its pool reference: the
common tail of synchronous `destroy_buffer` and of a deferred destruction
completed by `release_buffer`. -/
def removeBufferAndUnref (s : ShmState) (b : ShmBuffer) : ShmState :=
  poolUnref { s with buffers := s.buffers.filter (fun x => !(x.id == b.id)) } b.poolId

/-- Modelled from the spec: `cwc_shm_buffer_destroy` (declared at
include/shm.h:74, implementation absent). If the buffer is busy it is only
marked for deferred destruction; otherwise the pool reference is released and
the buffer state freed synchronously. -/
def cwc_shm_buffer_destroy (s : ShmState) (bid : Nat) : ShmState :=
  match s.buffers.find? (fun x => x.id == bid) with
  | none => s
  | some b =>
    if b.busy then
      { s with buffers := s.buffers.map (fun x =>
          if x.id == bid then { x with pendingDestroy := true } else x) }
    else
      removeBufferAndUnref s b

/-- Modelled from the spec: `release_buffer` (the renderer's release path;
`cwc_shm_buffer_resource_destroy` and the busy flag at include/shm.h:38).
Clears `busy`; if a deferred destroy is pending, completes it now. -/
def release_buffer (s : ShmState) (bid : Nat) : ShmState :=
  match s.buffers.find? (fun x => x.id == bid) with
  | none => s
  | some b =>
    if b.pendingDestroy then
      removeBufferAndUnref s b
    else
      { s with buffers := s.buffers.map (fun x =>
          if x.id == bid then { x with busy := false } else x) }

/-- Modelled from the spec: `cwc_shm_pool_destroy` (declared at
include/shm.h:64, implementation absent). When the reference count is zero
the pool is unmapped and removed; otherwise destruction is deferred: the
pool is only marked, and the mapping stays. -/
def cwc_shm_pool_destroy (s : ShmState) (pid : Nat) : ShmState :=
  match s.pools.find? (fun q => q.id == pid) with
  | none => s
  | some p =>
    if p.refCount == 0 then
      { s with pools := s.pools.filter (fun q => !(q.id == pid)) }
    else
      { s with pools := s.pools.map (fun q =>
          if q.id == pid then { q with pendingDestroy := true } else q) }

/-- Modelled from the spec: `cwc_shm_pool_resize` (declared at
include/shm.h:65, implementation absent). A pool only grows: a new size below
the current size is `InvalidResize`; otherwise the mapping is grown in place
and every live buffer of the pool is defensively re-validated, any failure
yielding `PoolCorruption`. Returns the (possibly unchanged) state together
with the error, if any; on error the state is returned untouched. -/
def cwc_shm_pool_resize (s : ShmState) (pid : Nat) (newSize : Int) :
    ShmState × Option ShmError :=
  match s.pools.find? (fun q => q.id == pid) with
  | none => (s, some .staleObject)
  | some p =>
    if newSize < (p.size : Int) then
      (s, some .invalidResize)
    else
      if (s.buffers.filter (fun b => b.poolId == pid)).all (fun b =>
           (cwc_shm_buffer_validate b.offset b.width b.height b.stride b.format
             newSize.toNat).toBool) then
        ({ s with pools := s.pools.map (fun q =>
             if q.id == pid then { q with size := newSize.toNat } else q) },
         none)
      else
        (s, some .poolCorruption)

/-- Protocol events against the SHM subsystem, the serialized request stream
of the spec's single event loop. `createPool`'s `mapOk` stands for the
outcome of the external mmap call; `markBusy` is the surface subsystem's
commit marking an attached buffer busy. -/
inductive ShmEvent where
  | createPool (size : Int) (mapOk : Bool)
  | destroyPool (pid : Nat)
  | resizePool (pid : Nat) (newSize : Int)
  | createBuffer (pid : Nat) (offset width height stride : Int) (format : Nat)
  | destroyBuffer (bid : Nat)
  | releaseBuffer (bid : Nat)
  | markBusy (bid : Nat)
  deriving DecidableEq, Repr

/-- One step of the SHM subsystem: a rejected request (validation error,
stale id) leaves the state unchanged. -/
def shmStep (s : ShmState) : ShmEvent → ShmState
  | .createPool size mapOk =>
    match cwc_shm_pool_create 0 size mapOk s.nextId with
    | .ok (p, _) => { s with pools := p :: s.pools, nextId := s.nextId + 1 }
    | .error _ => s
  | .destroyPool pid => cwc_shm_pool_destroy s pid
  | .resizePool pid newSize => (cwc_shm_pool_resize s pid newSize).1
  | .createBuffer pid offset width height stride format =>
    match cwc_shm_buffer_create s pid offset width height stride format with
    | .ok (s', _) => s'
    | .error _ => s
  | .destroyBuffer bid => cwc_shm_buffer_destroy s bid
  | .releaseBuffer bid => release_buffer s bid
  | .markBusy bid =>
    { s with buffers := s.buffers.map (fun x =>
        if x.id == bid then { x with busy := true } else x) }

/-- Running a list of SHM events from a state. -/
def shmRun (s : ShmState) (es : List ShmEvent) : ShmState :=
  es.foldl shmStep s

/-- Claim C1 (amended): for a pool present in the state,
`cwc_shm_buffer_create` succeeds iff the format is supported,
`stride >= width * bytes_per_pixel(format)`, the offset and byte length are
nonnegative, and `offset + stride*height <= pool_size`; each violated
condition yields its specific error (`UnsupportedFormat`, `InvalidStride`,
`OutOfBounds`). -/
theorem C1_buffer_create_validation
    (s : ShmState) (pid : Nat) (offset width height stride : Int) (format : Nat)
    (p : ShmPool) (hp : s.pools.find? (fun q => q.id == pid) = some p) :
    ((cwc_shm_buffer_create s pid offset width height stride format).toBool = true ↔
      (cwc_shm_format_supported format = true ∧
       width * (bytes_per_pixel format : Int) ≤ stride ∧
       0 ≤ offset ∧ 0 ≤ stride * height ∧
       offset + stride * height ≤ (p.size : Int))) ∧
    (cwc_shm_format_supported format = false →
      cwc_shm_buffer_create s pid offset width height stride format
        = .error .unsupportedFormat) ∧
    (cwc_shm_format_supported format = true →
      stride < width * (bytes_per_pixel format : Int) →
      cwc_shm_buffer_create s pid offset width height stride format
        = .error .invalidStride) ∧
    (cwc_shm_format_supported format = true →
      width * (bytes_per_pixel format : Int) ≤ stride →
      ¬ (0 ≤ offset ∧ 0 ≤ stride * height ∧
          offset + stride * height ≤ (p.size : Int)) →
      cwc_shm_buffer_create s pid offset width height stride format
        = .error .outOfBounds) := by
  unfold cwc_shm_buffer_create
  rw [hp]
  unfold cwc_shm_buffer_validate checked_region
  refine ⟨⟨?_, ?_⟩, ?_, ?_, ?_⟩
  · intro h
    by_cases hf : cwc_shm_format_supported format
    · by_cases hs : stride < width * (bytes_per_pixel format : Int)
      · simp [hf, hs, Except.toBool] at h
      · by_cases hr : 0 ≤ offset ∧ 0 ≤ stride * height ∧
            offset + stride * height ≤ (p.size : Int)
        · exact ⟨hf, le_of_not_lt hs, hr⟩
        · simp [hf, hs, hr, Except.toBool] at h
    · simp [hf, Except.toBool] at h
  · rintro ⟨hf, hs, hr⟩
    simp [hf, not_lt_of_le hs, hr, Except.toBool]
  · intro hf
    simp [hf]
  · intro hf hs
    simp [hf, hs]
  · intro hf hs hr
    simp [hf, not_lt_of_le hs, hr]

/-- Claim C1, counterexample to the claim as stated: with a negative offset
the claim's three conditions (supported format, sufficient stride,
`offset + stride*height <= pool_size`) all hold, yet `cwc_shm_buffer_create`
does not succeed — the Memory Guard rejects the region as `OutOfBounds`. -/
theorem C1_negative_offset_counterexample :
    cwc_shm_format_supported 0 = true ∧
    (32 : Int) * (bytes_per_pixel 0 : Int) ≤ 128 ∧
    (-128 : Int) + 128 * 32 ≤ ((4096 : Nat) : Int) ∧
    cwc_shm_buffer_create ⟨[⟨0, 4096, 0, false, true⟩], [], 1⟩ 0 (-128) 32 32 128 0
      = .error .outOfBounds :=
  ⟨rfl, by decide, by decide, rfl⟩

/-- Claim C1, witness: the amended theorem applied to the spec's worked
scenario (pool of 4096 bytes, offset 0, width 32, height 32, stride 128,
ARGB8888), plus each error branch at a concrete violating input. -/
theorem C1_buffer_create_validation_witness :
    (cwc_shm_buffer_create ⟨[⟨0, 4096, 0, false, true⟩], [], 1⟩ 0
        0 32 32 128 0).toBool = true ∧
    cwc_shm_buffer_create ⟨[⟨0, 4096, 0, false, true⟩], [], 1⟩ 0
        4000 32 32 128 0 = .error .outOfBounds ∧
    cwc_shm_buffer_create ⟨[⟨0, 4096, 0, false, true⟩], [], 1⟩ 0
        0 32 32 64 0 = .error .invalidStride ∧
    cwc_shm_buffer_create ⟨[⟨0, 4096, 0, false, true⟩], [], 1⟩ 0
        0 32 32 128 7 = .error .unsupportedFormat :=
  ⟨((C1_buffer_create_validation ⟨[⟨0, 4096, 0, false, true⟩], [], 1⟩ 0
        0 32 32 128 0 ⟨0, 4096, 0, false, true⟩ (by decide)).1).mpr
      (by refine ⟨by decide, by decide, by decide, by decide, by decide⟩),
   (C1_buffer_create_validation ⟨[⟨0, 4096, 0, false, true⟩], [], 1⟩ 0
        4000 32 32 128 0 ⟨0, 4096, 0, false, true⟩ (by decide)).2.2.2
      (by decide) (by decide) (by decide),
   (C1_buffer_create_validation ⟨[⟨0, 4096, 0, false, true⟩], [], 1⟩ 0
        0 32 32 64 0 ⟨0, 4096, 0, false, true⟩ (by decide)).2.2.1
      (by decide) (by decide),
   (C1_buffer_create_validation ⟨[⟨0, 4096, 0, false, true⟩], [], 1⟩ 0
        0 32 32 128 7 ⟨0, 4096, 0, false, true⟩ (by decide)).2.1
      (by decide)⟩

/-- Finding after an update that does not change the search key: the lookup
commutes with the per-element update. -/
lemma find?_map_pred_inv {α : Type} (p : α → Bool) (g : α → α)
    (hp : ∀ x, p (g x) = p x) :
    ∀ l : List α, (l.map g).find? p = (l.find? p).map g := by
  intro l
  induction l with
  | nil => simp
  | cons a l ih =>
    by_cases h : p a = true
    · rw [List.map_cons, List.find?_cons_of_pos _ (by rw [hp]; exact h),
        List.find?_cons_of_pos _ h]
      rfl
    · rw [List.map_cons, List.find?_cons_of_neg _ (by rw [hp]; simpa using h),
        List.find?_cons_of_neg _ (by simpa using h), ih]

/-- Counting is stable under an update that does not change the counted
predicate. -/
lemma countP_map_pred_inv {α : Type} (q : α → Bool) (g : α → α)
    (hq : ∀ x, q (g x) = q x) :
    ∀ l : List α, (l.map g).countP q = l.countP q := by
  intro l
  induction l with
  | nil => simp
  | cons a l ih => simp [List.countP_cons, hq, ih]

/-- After filtering out everything that matches, nothing matching is found. -/
lemma find?_filter_out {α : Type} (p : α → Bool) (l : List α) :
    (l.filter (fun x => !(p x))).find? p = none := by
  apply List.find?_eq_none.mpr
  intro a ha
  have hmem := List.mem_filter.mp ha
  simpa using hmem.2

/-- Removing the unique element with a given key from a list with pairwise
distinct keys removes exactly that element from every count. -/
lemma countP_of_find?_remove {α : Type} (key : α → Nat) (bid : Nat) (q : α → Bool) :
    ∀ (l : List α) (b : α),
      l.Pairwise (fun x y => key x ≠ key y) →
      l.find? (fun x => key x == bid) = some b →
      l.countP q
        = (l.filter (fun x => !(key x == bid))).countP q
          + (if q b then 1 else 0) := by
  intro l
  induction l with
  | nil => intro b _ hf; simp at hf
  | cons a l ih =>
    intro b hpw hf
    by_cases h : key a = bid
    · rw [List.find?_cons_of_pos _ (by simp [h])] at hf
      have hba : a = b := by simpa using hf
      have hall : ∀ x ∈ l, (!(key x == bid)) = true := by
        intro x hx
        have hne := (List.pairwise_cons.mp hpw).1 x hx
        simp only [Bool.not_eq_true', beq_eq_false_iff_ne]
        omega
      have hfe : l.filter (fun x => !(key x == bid)) = l :=
        List.filter_eq_self.mpr hall
      rw [List.filter_cons_of_neg (by simp [h]), hfe, List.countP_cons, hba]
    · rw [List.find?_cons_of_neg _ (by simp [h])] at hf
      rw [List.filter_cons_of_pos (by simp [h]), List.countP_cons,
        List.countP_cons, ih b (List.pairwise_cons.mp hpw).2 hf]
      omega

/-- Pairwise key-distinctness survives a key-preserving update. -/
lemma pairwise_key_map {α : Type} (key : α → Nat) (g : α → α)
    (hg : ∀ x, key (g x) = key x) (l : List α)
    (h : l.Pairwise (fun x y => key x ≠ key y)) :
    (l.map g).Pairwise (fun x y => key x ≠ key y) := by
  rw [List.pairwise_map]
  exact h.imp (by intro a b hab; simpa [hg] using hab)

/-- The bookkeeping invariant of the SHM subsystem: object ids are below the
fresh-id counter and pairwise distinct, and every pool's reference count
equals the number of live buffers carved from it. -/
def ShmInv (s : ShmState) : Prop :=
  (∀ p ∈ s.pools, p.id < s.nextId) ∧
  (∀ b ∈ s.buffers, b.id < s.nextId ∧ b.poolId < s.nextId) ∧
  s.pools.Pairwise (fun p q => p.id ≠ q.id) ∧
  s.buffers.Pairwise (fun a b => a.id ≠ b.id) ∧
  (∀ p ∈ s.pools, p.refCount = (s.buffers.countP (fun b => b.poolId == p.id) : Int))

/-- An update of the buffer list that moves no buffer between pools and
renames none preserves the invariant. -/
lemma shmInv_map_buffers (s : ShmState) (g : ShmBuffer → ShmBuffer)
    (hgid : ∀ x, (g x).id = x.id) (hgpool : ∀ x, (g x).poolId = x.poolId)
    (hinv : ShmInv s) :
    ShmInv { s with buffers := s.buffers.map g } := by
  obtain ⟨hpid, hbid, hppw, hbpw, hcnt⟩ := hinv
  refine ⟨hpid, ?_, hppw, ?_, ?_⟩
  · intro x hx
    obtain ⟨y, hy, rfl⟩ := List.mem_map.mp hx
    simpa [hgid, hgpool] using hbid y hy
  · exact pairwise_key_map ShmBuffer.id g hgid s.buffers hbpw
  · intro p hp
    have := countP_map_pred_inv (fun x => x.poolId == p.id) g
      (fun x => by simp [hgpool]) s.buffers
    simp only [ShmState.buffers] at *
    rw [this]
    exact hcnt p hp

/-- An update of the pool list that changes no pool's id or reference count
preserves the invariant. -/
lemma shmInv_map_pools (s : ShmState) (g : ShmPool → ShmPool)
    (hgid : ∀ x, (g x).id = x.id) (hgref : ∀ x, (g x).refCount = x.refCount)
    (hinv : ShmInv s) :
    ShmInv { s with pools := s.pools.map g } := by
  obtain ⟨hpid, hbid, hppw, hbpw, hcnt⟩ := hinv
  refine ⟨?_, hbid, pairwise_key_map ShmPool.id g hgid s.pools hppw, hbpw, ?_⟩
  · intro x hx
    obtain ⟨y, hy, rfl⟩ := List.mem_map.mp hx
    simpa [hgid] using hpid y hy
  · intro x hx
    obtain ⟨y, hy, rfl⟩ := List.mem_map.mp hx
    simp only [hgid, hgref]
    exact hcnt y hy

/-- Synchronously freeing a buffer and releasing its pool reference preserves
the invariant: the pool's count and the pool's buffer population drop
together. -/
lemma shmInv_removeBufferAndUnref (s : ShmState) (b : ShmBuffer)
    (hinv : ShmInv s) (hb : s.buffers.find? (fun x => x.id == b.id) = some b) :
    ShmInv (removeBufferAndUnref s b) := by
  obtain ⟨hpid, hbid, hppw, hbpw, hcnt⟩ := hinv
  have hcountEq : ∀ q : ShmPool,
      s.buffers.countP (fun x => x.poolId == q.id)
        = (s.buffers.filter (fun x => !(x.id == b.id))).countP
            (fun x => x.poolId == q.id)
          + (if b.poolId == q.id then 1 else 0) := by
    intro q
    exact countP_of_find?_remove ShmBuffer.id b.id (fun x => x.poolId == q.id)
      s.buffers b hbpw hb
  have hdec_id : ∀ q : ShmPool,
      ((if q.id == b.poolId then { q with refCount := q.refCount - 1 } else q)
        : ShmPool).id = q.id := by
    intro q; by_cases h : q.id == b.poolId <;> simp [h]
  simp only [removeBufferAndUnref, poolUnref]
  refine ⟨?_, ?_, ?_, ?_, ?_⟩
  · intro p hp
    have hp1 := List.mem_of_mem_filter hp
    obtain ⟨q, hq, rfl⟩ := List.mem_map.mp hp1
    have hlt := hpid q hq
    split <;> simpa using hlt
  · intro x hx
    exact hbid x (List.mem_filter.mp hx).1
  · exact (pairwise_key_map ShmPool.id _ hdec_id s.pools hppw).filter _
  · exact hbpw.filter _
  · intro p hp
    have hp1 := List.mem_of_mem_filter hp
    obtain ⟨q, hq, rfl⟩ := List.mem_map.mp hp1
    have h1 := hcnt q hq
    have h2 := hcountEq q
    by_cases h : q.id = b.poolId
    · have hcond : (q.id == b.poolId) = true := by simpa using h
      have hif : (b.poolId == q.id) = true := by simpa using h.symm
      simp only [hif, if_true] at h2
      simp only [hcond, if_true]
      omega
    · have hcond : (q.id == b.poolId) = false := by simpa using h
      have hif : (b.poolId == q.id) = false := by
        simp only [beq_eq_false_iff_ne]
        omega
      simp only [hif, Bool.false_eq_true, if_false, Nat.add_zero] at h2
      simp only [hcond, Bool.false_eq_true, if_false]
      omega

/-- Every SHM request preserves the bookkeeping invariant. -/
lemma shmInv_step (s : ShmState) (e : ShmEvent) (hinv : ShmInv s) :
    ShmInv (shmStep s e) := by
  obtain ⟨hpid, hbid, hppw, hbpw, hcnt⟩ := hinv
  cases e with
  | createPool size mapOk =>
    by_cases h1 : cwc_shm_pool_validate_size size = true
    · by_cases h3 : mapOk = true
      · have hred : shmStep s (.createPool size mapOk)
            = { pools := ⟨s.nextId, size.toNat, 0, false, true⟩ :: s.pools,
                buffers := s.buffers, nextId := s.nextId + 1 } := by
          simp [shmStep, cwc_shm_pool_create, h1, h3, CWC_SHM_MAX_POOLS_PER_CLIENT]
        rw [hred]
        refine ⟨?_, ?_, ?_, hbpw, ?_⟩
        · intro p hp
          rcases List.mem_cons.mp hp with h | h
          · subst h; simp
          · exact Nat.lt_succ_of_lt (hpid p h)
        · intro x hx
          have := hbid x hx
          exact ⟨Nat.lt_succ_of_lt this.1, Nat.lt_succ_of_lt this.2⟩
        · refine List.pairwise_cons.mpr ⟨?_, hppw⟩
          intro q hq
          have := hpid q hq
          simp only [ne_eq]
          omega
        · intro p hp
          rcases List.mem_cons.mp hp with h | h
          · subst h
            have hz : s.buffers.countP (fun b => b.poolId == s.nextId) = 0 := by
              apply List.countP_eq_zero.mpr
              intro b hbm
              have := (hbid b hbm).2
              simp only [beq_iff_eq]
              omega
            simp [hz]
          · exact hcnt p h
      · have hred : shmStep s (.createPool size mapOk) = s := by
          simp [shmStep, cwc_shm_pool_create, h1, h3, CWC_SHM_MAX_POOLS_PER_CLIENT]
        rw [hred]
        exact ⟨hpid, hbid, hppw, hbpw, hcnt⟩
    · have hred : shmStep s (.createPool size mapOk) = s := by
        simp [shmStep, cwc_shm_pool_create, h1]
      rw [hred]
      exact ⟨hpid, hbid, hppw, hbpw, hcnt⟩
  | destroyPool pid =>
    have hred : shmStep s (.destroyPool pid) = cwc_shm_pool_destroy s pid := rfl
    rw [hred]
    unfold cwc_shm_pool_destroy
    cases hfind : s.pools.find? (fun q => q.id == pid) with
    | none => exact ⟨hpid, hbid, hppw, hbpw, hcnt⟩
    | some p =>
      by_cases h0 : (p.refCount == 0) = true
      · simp only [h0, if_true]
        refine ⟨?_, hbid, hppw.filter _, hbpw, ?_⟩
        · intro q hq
          exact hpid q (List.mem_of_mem_filter hq)
        · intro q hq
          exact hcnt q (List.mem_of_mem_filter hq)
      · simp only [h0, Bool.false_eq_true, if_false]
        exact shmInv_map_pools s _
          (fun x => by split <;> simp)
          (fun x => by split <;> simp)
          ⟨hpid, hbid, hppw, hbpw, hcnt⟩
  | resizePool pid newSize =>
    have hred : shmStep s (.resizePool pid newSize)
        = (cwc_shm_pool_resize s pid newSize).1 := rfl
    rw [hred]
    unfold cwc_shm_pool_resize
    cases hfind : s.pools.find? (fun q => q.id == pid) with
    | none => exact ⟨hpid, hbid, hppw, hbpw, hcnt⟩
    | some p =>
      by_cases hlt : newSize < (p.size : Int)
      · simp only [if_pos hlt]
        exact ⟨hpid, hbid, hppw, hbpw, hcnt⟩
      · simp only [if_neg hlt]
        by_cases hall : (s.buffers.filter (fun b => b.poolId == pid)).all (fun b =>
            (cwc_shm_buffer_validate b.offset b.width b.height b.stride b.format
              newSize.toNat).toBool) = true
        · simp only [hall, if_true]
          exact shmInv_map_pools s _
            (fun x => by split <;> simp)
            (fun x => by split <;> simp)
            ⟨hpid, hbid, hppw, hbpw, hcnt⟩
        · simp only [hall, Bool.false_eq_true, if_false]
          exact ⟨hpid, hbid, hppw, hbpw, hcnt⟩
  | createBuffer pid offset width height stride format =>
    cases hc : cwc_shm_buffer_create s pid offset width height stride format with
    | error e =>
      simp only [shmStep, hc]
      exact ⟨hpid, hbid, hppw, hbpw, hcnt⟩
    | ok r =>
      obtain ⟨s', bid⟩ := r
      simp only [shmStep, hc]
      unfold cwc_shm_buffer_create at hc
      split at hc
      · cases hc
      · next p hfind =>
        split at hc
        · cases hc
        · have hps : p.id = pid := by
            have := List.find?_some hfind
            simpa using this
          have hpmem : p ∈ s.pools := List.mem_of_find?_eq_some hfind
          have hpidlt : pid < s.nextId := hps ▸ hpid p hpmem
          injection hc with hc1
          injection hc1 with hs' hbid'
          subst hs'
          refine ⟨?_, ?_, ?_, ?_, ?_⟩
          · intro q hq
            obtain ⟨y, hy, rfl⟩ := List.mem_map.mp hq
            have := hpid y hy
            split <;> simpa using Nat.lt_succ_of_lt this
          · intro x hx
            rcases List.mem_cons.mp hx with h | h
            · subst h
              exact ⟨Nat.lt_succ_self _, Nat.lt_succ_of_lt hpidlt⟩
            · exact ⟨Nat.lt_succ_of_lt (hbid x h).1, Nat.lt_succ_of_lt (hbid x h).2⟩
          · exact pairwise_key_map ShmPool.id _
              (fun x => by split <;> simp) s.pools hppw
          · refine List.pairwise_cons.mpr ⟨?_, hbpw⟩
            intro y hy
            have := (hbid y hy).1
            simp only [ne_eq]
            omega
          · intro q hq
            obtain ⟨y, hy, rfl⟩ := List.mem_map.mp hq
            have h1 := hcnt y hy
            by_cases h : y.id = pid
            · have hcond : (y.id == pid) = true := by simpa using h
              have hbc : (pid == y.id) = true := by simpa using h.symm
              dsimp only
              simp only [hcond, if_true, List.countP_cons]
              dsimp only
              simp only [hbc, if_true]
              omega
            · have hcond : (y.id == pid) = false := by simpa using h
              have hbc : (pid == y.id) = false := by
                simp only [beq_eq_false_iff_ne]
                omega
              dsimp only
              simp only [hcond, Bool.false_eq_true, if_false, List.countP_cons]
              dsimp only
              simp only [hbc, Bool.false_eq_true, if_false, Nat.add_zero]
              omega
  | destroyBuffer bid =>
    have hred : shmStep s (.destroyBuffer bid) = cwc_shm_buffer_destroy s bid := rfl
    rw [hred]
    unfold cwc_shm_buffer_destroy
    cases hfind : s.buffers.find? (fun x => x.id == bid) with
    | none => exact ⟨hpid, hbid, hppw, hbpw, hcnt⟩
    | some b =>
      have hbb : bid = b.id := by
        have := List.find?_some hfind
        simp at this
        omega
      by_cases hbusy : b.busy = true
      · simp only [hbusy, if_true]
        exact shmInv_map_buffers s _
          (fun x => by split <;> simp)
          (fun x => by split <;> simp)
          ⟨hpid, hbid, hppw, hbpw, hcnt⟩
      · simp only [hbusy, Bool.false_eq_true, if_false]
        exact shmInv_removeBufferAndUnref s b ⟨hpid, hbid, hppw, hbpw, hcnt⟩
          (hbb ▸ hfind)
  | releaseBuffer bid =>
    have hred : shmStep s (.releaseBuffer bid) = release_buffer s bid := rfl
    rw [hred]
    unfold release_buffer
    cases hfind : s.buffers.find? (fun x => x.id == bid) with
    | none => exact ⟨hpid, hbid, hppw, hbpw, hcnt⟩
    | some b =>
      have hbb : bid = b.id := by
        have := List.find?_some hfind
        simp at this
        omega
      by_cases hpd : b.pendingDestroy = true
      · simp only [hpd, if_true]
        exact shmInv_removeBufferAndUnref s b ⟨hpid, hbid, hppw, hbpw, hcnt⟩
          (hbb ▸ hfind)
      · simp only [hpd, Bool.false_eq_true, if_false]
        exact shmInv_map_buffers s _
          (fun x => by split <;> simp)
          (fun x => by split <;> simp)
          ⟨hpid, hbid, hppw, hbpw, hcnt⟩
  | markBusy bid =>
    have hred : shmStep s (.markBusy bid)
        = { s with buffers := s.buffers.map (fun x =>
            if x.id == bid then { x with busy := true } else x) } := rfl
    rw [hred]
    exact shmInv_map_buffers s _
      (fun x => by split <;> simp)
      (fun x => by split <;> simp)
      ⟨hpid, hbid, hppw, hbpw, hcnt⟩

/-- The invariant holds along any run. -/
lemma shmInv_run (s : ShmState) (es : List ShmEvent) (hinv : ShmInv s) :
    ShmInv (shmRun s es) := by
  induction es generalizing s with
  | nil => exact hinv
  | cons e es ih => exact ih (shmStep s e) (shmInv_step s e hinv)

/-- The invariant holds in the initial state. -/
lemma shmInv_init : ShmInv shmInit := by
  refine ⟨?_, ?_, ?_, ?_, ?_⟩ <;> simp [shmInit]

/-- Number of live (not yet destroyed) buffers carved from a given pool. -/
def liveBuffersOf (s : ShmState) (pid : Nat) : Nat :=
  s.buffers.countP (fun b => b.poolId == pid)

/-- Claim C2: at every reachable state of the SHM subsystem, each pool's
`ref_count` equals the number of live buffers created from it; and
`cwc_shm_pool_destroy` removes (unmaps) the pool only when that count is
zero — with a nonzero count the pool survives, merely marked for deferred
destruction. -/
theorem C2_pool_refcount_invariant (es : List ShmEvent) :
    (∀ p ∈ (shmRun shmInit es).pools,
      p.refCount = (liveBuffersOf (shmRun shmInit es) p.id : Int)) ∧
    (∀ pid p, (shmRun shmInit es).pools.find? (fun q => q.id == pid) = some p →
      (p.refCount ≠ 0 →
        (cwc_shm_pool_destroy (shmRun shmInit es) pid).pools.find?
            (fun q => q.id == pid) = some { p with pendingDestroy := true }) ∧
      (p.refCount = 0 →
        (cwc_shm_pool_destroy (shmRun shmInit es) pid).pools.find?
            (fun q => q.id == pid) = none)) := by
  obtain ⟨hpid, hbid, hppw, hbpw, hcnt⟩ := shmInv_run shmInit es shmInv_init
  refine ⟨fun p hp => hcnt p hp, ?_⟩
  intro pid p hfind
  have hps : (p.id == pid) = true := by
    have := List.find?_some hfind
    simpa using this
  constructor
  · intro hne
    unfold cwc_shm_pool_destroy
    rw [hfind]
    have h0 : (p.refCount == 0) = false := by simpa using hne
    simp only [h0, Bool.false_eq_true, if_false]
    rw [find?_map_pred_inv (fun q => q.id == pid)
      (fun q => if q.id == pid then { q with pendingDestroy := true } else q)
      (fun x => by dsimp only; split <;> simp) ((shmRun shmInit es).pools), hfind]
    simp [hps]
    intro hcontra
    exact absurd (by simpa using hps) hcontra
  · intro h0
    unfold cwc_shm_pool_destroy
    rw [hfind]
    have h0' : (p.refCount == 0) = true := by simpa using h0
    simp only [h0', if_true]
    exact find?_filter_out (fun q : ShmPool => q.id == pid) _

/-- Claim C2, witness: after creating one pool of 4096 bytes its reference
count (zero) equals its live-buffer count, and destroying it with a zero
count removes it. -/
theorem C2_pool_refcount_invariant_witness :
    ((⟨0, 4096, 0, false, true⟩ : ShmPool).refCount
        = (liveBuffersOf (shmRun shmInit [ShmEvent.createPool 4096 true]) 0 : Int)) ∧
    (cwc_shm_pool_destroy (shmRun shmInit [ShmEvent.createPool 4096 true]) 0).pools.find?
        (fun q => q.id == 0) = none :=
  ⟨(C2_pool_refcount_invariant [ShmEvent.createPool 4096 true]).1
      ⟨0, 4096, 0, false, true⟩ (by decide),
   ((C2_pool_refcount_invariant [ShmEvent.createPool 4096 true]).2 0
      ⟨0, 4096, 0, false, true⟩ (by decide)).2 rfl⟩

/-- Claim C5, counterexample to the claim as stated: a pool of 4096 bytes
with one live buffer needing all 4096 bytes, resized to 2048 (smaller than
the buffer requires), returns `InvalidResize` — the only-grows rule fires
before buffer re-validation — and not `PoolCorruption`. -/
theorem C5_resize_smaller_counterexample :
    (cwc_shm_pool_resize
        ⟨[⟨0, 4096, 1, false, true⟩],
         [⟨1, 0, 0, 32, 32, 128, 0, false, false⟩], 2⟩ 0 2048).2
      = some ShmError.invalidResize ∧
    some ShmError.invalidResize ≠ some ShmError.poolCorruption :=
  ⟨rfl, by decide⟩

/-- Claim C5 (amended): resizing a pool to a size smaller than required by
some live buffer of that pool is rejected with `InvalidResize` (such a size
is necessarily below the pool's current size, and a pool only grows), and
the state — the pool's size and mapping and every buffer's fields — is
returned exactly as it was. -/
theorem C5_resize_smaller_rejected (s : ShmState) (pid : Nat) (newSize : Int)
    (p : ShmPool) (b : ShmBuffer)
    (hp : s.pools.find? (fun q => q.id == pid) = some p)
    (hb : b ∈ s.buffers) (hbp : b.poolId = pid)
    (hfit : b.offset + b.stride * b.height ≤ (p.size : Int))
    (hreq : newSize < b.offset + b.stride * b.height) :
    cwc_shm_pool_resize s pid newSize = (s, some ShmError.invalidResize) := by
  unfold cwc_shm_pool_resize
  rw [hp]
  have hlt : newSize < (p.size : Int) := lt_of_lt_of_le hreq hfit
  simp [hlt]

/-- Claim C5, witness: the amended theorem applied to the concrete
one-pool / one-buffer state. -/
theorem C5_resize_smaller_rejected_witness :
    cwc_shm_pool_resize
        ⟨[⟨0, 4096, 1, false, true⟩],
         [⟨1, 0, 0, 32, 32, 128, 0, false, false⟩], 2⟩ 0 2048
      = (⟨[⟨0, 4096, 1, false, true⟩],
          [⟨1, 0, 0, 32, 32, 128, 0, false, false⟩], 2⟩,
         some ShmError.invalidResize) :=
  C5_resize_smaller_rejected _ 0 2048 ⟨0, 4096, 1, false, true⟩
    ⟨1, 0, 0, 32, 32, 128, 0, false, false⟩ (by decide)
    (by decide) rfl (by decide) (by decide)

/-- Claim C6: `cwc_shm_pool_create` returns `InvalidSize` whenever the
declared size is nonpositive or exceeds the 64 MiB ceiling; with a valid
size and available quota it returns `MapFailed` when the mapping fails, and
on success it returns the new pool and the client's pool count incremented
by one. -/
theorem C6_create_pool_validation (clientPoolCount : Nat) (size : Int)
    (mapOk : Bool) (freshId : Nat) :
    ((size ≤ 0 ∨ (CWC_SHM_MAX_POOL_SIZE : Int) < size) →
      cwc_shm_pool_create clientPoolCount size mapOk freshId
        = .error .invalidSize) ∧
    (cwc_shm_pool_validate_size size = true →
      clientPoolCount < CWC_SHM_MAX_POOLS_PER_CLIENT →
      mapOk = false →
      cwc_shm_pool_create clientPoolCount size mapOk freshId
        = .error .mapFailed) ∧
    (cwc_shm_pool_validate_size size = true →
      clientPoolCount < CWC_SHM_MAX_POOLS_PER_CLIENT →
      mapOk = true →
      cwc_shm_pool_create clientPoolCount size mapOk freshId
        = .ok (⟨freshId, size.toNat, 0, false, true⟩, clientPoolCount + 1)) := by
  refine ⟨?_, ?_, ?_⟩
  · intro h
    have h' : size ≤ 0 ∨ (67108864 : Int) < size := by
      simpa [CWC_SHM_MAX_POOL_SIZE] using h
    have hv : cwc_shm_pool_validate_size size = false := by
      simp only [cwc_shm_pool_validate_size, CWC_SHM_MAX_POOL_SIZE]
      simp only [Bool.and_eq_false_iff, decide_eq_false_iff_not, not_lt, not_le]
      omega
    unfold cwc_shm_pool_create
    simp [hv]
  · intro hv hq hm
    unfold cwc_shm_pool_create
    simp [hv, hm, Nat.not_le.mpr hq]
  · intro hv hq hm
    unfold cwc_shm_pool_create
    simp [hv, hm, Nat.not_le.mpr hq]

/-- Claim C6, witness: the theorem applied at a nonpositive size, an
over-ceiling size, a failing map, and a successful creation. -/
theorem C6_create_pool_validation_witness :
    cwc_shm_pool_create 0 0 true 5 = .error .invalidSize ∧
    cwc_shm_pool_create 0 (64 * 1024 * 1024 + 1) true 5 = .error .invalidSize ∧
    cwc_shm_pool_create 0 4096 false 5 = .error .mapFailed ∧
    cwc_shm_pool_create 0 4096 true 5 = .ok (⟨5, 4096, 0, false, true⟩, 1) :=
  ⟨(C6_create_pool_validation 0 0 true 5).1 (Or.inl (by decide)),
   (C6_create_pool_validation 0 (64 * 1024 * 1024 + 1) true 5).1
     (Or.inr (by decide)),
   (C6_create_pool_validation 0 4096 false 5).2.1 (by decide) (by decide) rfl,
   (C6_create_pool_validation 0 4096 true 5).2.2 (by decide) (by decide) rfl⟩

/-- Output configuration record, after struct cwc_output_config
(include/output.h:7-16); width/height/physical sizes/refresh rate are
int32_t, subpixel and transform are wire enum codes. -/
structure cwc_output_config where
  x : Int
  y : Int
  width : Int
  height : Int
  physical_width : Int
  physical_height : Int
  refresh_rate : Int
  subpixel : Nat
  transform : Nat
  deriving DecidableEq, Repr

/-- Output state, after struct cwc_output (include/output.h:19-30): the
current configuration and the enabled flag. -/
structure cwc_output where
  id : Nat
  config : cwc_output_config
  enabled : Bool
  deriving DecidableEq, Repr

/-- Error of the output subsystem, from the spec: `InvalidConfig`. -/
inductive OutputError where
  | invalidConfig
  deriving DecidableEq, Repr

/-- Modelled from the spec: `cwc_output_config_validate` (declared at
include/output.h:50, implementation absent); geometry and mode are valid
when width, height and refresh rate are all positive. -/
def cwc_output_config_validate (c : cwc_output_config) : Bool :=
  0 < c.width && 0 < c.height && 0 < c.refresh_rate

/-- Modelled from the spec: `cwc_output_configure` (declared at
include/output.h:49, implementation absent). Validates the configuration,
returning `InvalidConfig` on failure; otherwise applies it and marks the
output enabled. -/
def cwc_output_configure (o : cwc_output) (c : cwc_output_config) :
    Except OutputError cwc_output :=
  if cwc_output_config_validate c then
    .ok { o with config := c, enabled := true }
  else
    .error .invalidConfig

/-- Claim C8: `configure(output, config)` returns `InvalidConfig` whenever
width, height or refresh rate is nonpositive, and otherwise applies the
configuration and sets the enabled flag. -/
theorem C8_output_configure_validation (o : cwc_output) (c : cwc_output_config) :
    ((c.width ≤ 0 ∨ c.height ≤ 0 ∨ c.refresh_rate ≤ 0) →
      cwc_output_configure o c = .error .invalidConfig) ∧
    (0 < c.width → 0 < c.height → 0 < c.refresh_rate →
      cwc_output_configure o c = .ok { o with config := c, enabled := true }) := by
  constructor
  · intro h
    have hv : cwc_output_config_validate c = false := by
      simp only [cwc_output_config_validate, Bool.and_eq_false_iff,
        decide_eq_false_iff_not, not_lt]
      omega
    simp [cwc_output_configure, hv]
  · intro h1 h2 h3
    have hv : cwc_output_config_validate c = true := by
      simp only [cwc_output_config_validate, Bool.and_eq_true,
        decide_eq_true_eq]
      exact ⟨⟨h1, h2⟩, h3⟩
    simp [cwc_output_configure, hv]

/-- Claim C8, witness: a zero-width configuration is rejected; a 1920x1080
at 60 configuration is applied and enables the output. -/
theorem C8_output_configure_validation_witness :
    cwc_output_configure ⟨0, ⟨0, 0, 0, 0, 0, 0, 0, 0, 0⟩, false⟩
        ⟨0, 0, 0, 1080, 300, 200, 60, 0, 0⟩ = .error .invalidConfig ∧
    cwc_output_configure ⟨0, ⟨0, 0, 0, 0, 0, 0, 0, 0, 0⟩, false⟩
        ⟨0, 0, 1920, 1080, 300, 200, 60, 0, 0⟩
      = .ok ⟨0, ⟨0, 0, 1920, 1080, 300, 200, 60, 0, 0⟩, true⟩ :=
  ⟨(C8_output_configure_validation ⟨0, ⟨0, 0, 0, 0, 0, 0, 0, 0, 0⟩, false⟩
      ⟨0, 0, 0, 1080, 300, 200, 60, 0, 0⟩).1 (Or.inl (by decide)),
   (C8_output_configure_validation ⟨0, ⟨0, 0, 0, 0, 0, 0, 0, 0, 0⟩, false⟩
      ⟨0, 0, 1920, 1080, 300, 200, 60, 0, 0⟩).2 (by decide) (by decide)
      (by decide)⟩

/-- Error codes, after cwc_error_t (include/cwc.h:41-48). -/
inductive cwc_error_t where
  | CWC_SUCCESS
  | CWC_ERROR_MEMORY
  | CWC_ERROR_DISPLAY
  | CWC_ERROR_SOCKET
  | CWC_ERROR_RESOURCE
  | CWC_ERROR_INVALID_PARAM
  deriving DecidableEq, Repr

/-- CWC_DEFAULT_SOCKET (include/cwc.h:26). -/
def CWC_DEFAULT_SOCKET : String := "wayland-1"

/-- The part of struct cwc_server (include/cwc.h:59-82) that
`cwc_server_init` touches: the display pointer (none models NULL), the
socket name, and the three initialized resource lists. -/
structure cwc_server where
  display : Option Nat
  socket_name : String
  outputsInit : Bool
  surfacesInit : Bool
  clientsInit : Bool
  deriving DecidableEq, Repr

/-- Externally observable libwayland/libc calls made by `cwc_server_init`:
display creation with its returned handle, the add-socket attempt, display
destruction, and the WAYLAND_DISPLAY setenv. -/
inductive ServerEffect where
  | createDisplay (d : Nat)
  | addSocket (name : String)
  | destroyDisplay (d : Nat)
  | setEnvVar (name : String)
  deriving DecidableEq, Repr

/-- `cwc_server_init` (src/main.c:152-182), translated from the source.
External outcomes are arguments: `displayCreate` is the handle
`wl_display_create` returns (none for NULL), `socketOk` whether
`wl_display_add_socket` succeeds, `envOk` whether `setenv` succeeds (its
failure only prints a warning). Returns the error code, the server state as
the function leaves it, and the trace of external calls in order. Note the
source does not reset `server->display` to NULL after destroying the display
in the socket-failure path. -/
def cwc_server_init (socket_name : Option String) (displayCreate : Option Nat)
    (socketOk : Bool) (envOk : Bool) :
    cwc_error_t × cwc_server × List ServerEffect :=
  let name := socket_name.getD CWC_DEFAULT_SOCKET
  let server0 : cwc_server := ⟨none, name, true, true, true⟩
  match displayCreate with
  | none => (.CWC_ERROR_DISPLAY, server0, [])
  | some d =>
    let server1 := { server0 with display := some d }
    if socketOk then
      (.CWC_SUCCESS, server1,
        [.createDisplay d, .addSocket name, .setEnvVar name])
    else
      (.CWC_ERROR_SOCKET, server1,
        [.createDisplay d, .addSocket name, .destroyDisplay d])

/-- Displays created during the call and never destroyed during it. -/
def displaysLeaked (fx : List ServerEffect) : List Nat :=
  (fx.filterMap (fun e => match e with
    | .createDisplay d => some d
    | _ => none)).filter (fun d => ¬ fx.contains (.destroyDisplay d))

/-- Claim C9: when the display is created but adding the socket fails,
`cwc_server_init` destroys the display it created before returning
`CWC_ERROR_SOCKET`; no display created during the call outlives it. -/
theorem C9_server_init_socket_failure_rollback (socket_name : Option String)
    (d : Nat) (envOk : Bool) :
    (cwc_server_init socket_name (some d) false envOk).1
      = .CWC_ERROR_SOCKET ∧
    (cwc_server_init socket_name (some d) false envOk).2.2
      = [.createDisplay d, .addSocket (socket_name.getD CWC_DEFAULT_SOCKET),
         .destroyDisplay d] ∧
    displaysLeaked (cwc_server_init socket_name (some d) false envOk).2.2
      = [] := by
  refine ⟨rfl, rfl, ?_⟩
  simp [cwc_server_init, displaysLeaked]

/-- EXIT_FAILURE of stdlib.h. -/
def EXIT_FAILURE : Nat := 1

/-- `cwc_malloc` (src/main.c:127-134), translated from the source.
`sysMalloc` stands for what the underlying `malloc` returns (none models
NULL); `.error code` models `exit(code)`. The pointer is otherwise returned
unchanged — NULL can only be returned for a zero-byte request. -/
def cwc_malloc (size : Nat) (sysMalloc : Option Nat) : Except Nat (Option Nat) :=
  match sysMalloc with
  | none => if 0 < size then .error EXIT_FAILURE else .ok none
  | some p => .ok (some p)

/-- `cwc_calloc` (src/main.c:136-143), translated from the source; exits
when the underlying `calloc` returns NULL and both counts are positive. -/
def cwc_calloc (nmemb size : Nat) (sysCalloc : Option Nat) :
    Except Nat (Option Nat) :=
  match sysCalloc with
  | none => if 0 < nmemb ∧ 0 < size then .error EXIT_FAILURE else .ok none
  | some p => .ok (some p)

/-- Claim C10: for a positive request, `cwc_malloc` (and `cwc_calloc` for
positive nmemb and size) either returns a non-null pointer or terminates the
process with EXIT_FAILURE; neither ever hands NULL back to the caller. -/
theorem C10_alloc_never_null (size nmemb : Nat)
    (sysMalloc sysCalloc : Option Nat) (hs : 0 < size) (hn : 0 < nmemb) :
    (cwc_malloc size sysMalloc = .error EXIT_FAILURE ∨
      ∃ p, cwc_malloc size sysMalloc = .ok (some p)) ∧
    cwc_malloc size sysMalloc ≠ .ok none ∧
    (cwc_calloc nmemb size sysCalloc = .error EXIT_FAILURE ∨
      ∃ p, cwc_calloc nmemb size sysCalloc = .ok (some p)) ∧
    cwc_calloc nmemb size sysCalloc ≠ .ok none := by
  have hm : (cwc_malloc size sysMalloc = .error EXIT_FAILURE ∨
      ∃ p, cwc_malloc size sysMalloc = .ok (some p)) ∧
      cwc_malloc size sysMalloc ≠ .ok none := by
    cases sysMalloc with
    | none => simp [cwc_malloc, hs]
    | some p => exact ⟨Or.inr ⟨p, rfl⟩, by simp [cwc_malloc]⟩
  have hc : (cwc_calloc nmemb size sysCalloc = .error EXIT_FAILURE ∨
      ∃ p, cwc_calloc nmemb size sysCalloc = .ok (some p)) ∧
      cwc_calloc nmemb size sysCalloc ≠ .ok none := by
    cases sysCalloc with
    | none => simp [cwc_calloc, hs, hn]
    | some p => exact ⟨Or.inr ⟨p, rfl⟩, by simp [cwc_calloc]⟩
  exact ⟨hm.1, hm.2, hc.1, hc.2⟩

/-- Claim C10, witness: the theorem at a 16-byte malloc that succeeds and a
4x16 calloc whose underlying allocation fails (and therefore exits). -/
theorem C10_alloc_never_null_witness :
    (cwc_malloc 16 (some 1000) = .error EXIT_FAILURE ∨
      ∃ p, cwc_malloc 16 (some 1000) = .ok (some p)) ∧
    cwc_malloc 16 (some 1000) ≠ .ok none ∧
    (cwc_calloc 4 16 none = .error EXIT_FAILURE ∨
      ∃ p, cwc_calloc 4 16 none = .ok (some p)) ∧
    cwc_calloc 4 16 none ≠ .ok none :=
  C10_alloc_never_null 16 4 (some 1000) none (by decide) (by decide)

/-- Client resource record: the tracking entry of struct cwc_client_state
(include/cwc.h:85-91) together with the per-kind resource lists the spec's
Client Registry keeps for cascade destruction (owned surfaces, buffers,
pools). -/
structure ClientRec where
  id : Nat
  surfaces : List Nat
  buffers : List Nat
  pools : List Nat
  deriving DecidableEq, Repr

/-- A destruction notification emitted while tearing a client's resources
down. -/
inductive DestroyNotif where
  | buffer (id : Nat)
  | pool (id : Nat)
  | surface (id : Nat)
  deriving DecidableEq, Repr

/-- Modelled from the spec: `cwc_client_state_destroy` together with
`cwc_shm_cleanup_client_pools` (declared at include/cwc.h:117 and
include/shm.h:90, implementations absent). Unregistering a client cascades
destruction over every resource it owns, in order buffer then pool, then
surface, emitting one destruction notification per resource, and removes the
client's record; called again for the same id it finds nothing and emits
nothing. -/
def cwc_client_state_destroy (reg : List ClientRec) (cid : Nat) :
    List ClientRec × List DestroyNotif :=
  match reg.find? (fun c => c.id == cid) with
  | none => (reg, [])
  | some c =>
    (reg.filter (fun x => !(x.id == cid)),
     c.buffers.map .buffer ++ c.pools.map .pool ++ c.surfaces.map .surface)

/-- Claim C4: disconnecting a client owning N surfaces, M buffers and K
pools emits exactly N+M+K destruction notifications, leaves no registry
entry for that client, and running the cascade a second time for the same
client changes nothing and emits nothing. -/
theorem C4_client_disconnect_cascade (reg : List ClientRec) (cid : Nat)
    (c : ClientRec) (hfind : reg.find? (fun x => x.id == cid) = some c) :
    (cwc_client_state_destroy reg cid).2.length
      = c.surfaces.length + c.buffers.length + c.pools.length ∧
    (cwc_client_state_destroy reg cid).1.find? (fun x => x.id == cid) = none ∧
    cwc_client_state_destroy (cwc_client_state_destroy reg cid).1 cid
      = ((cwc_client_state_destroy reg cid).1, []) := by
  have hnone : (reg.filter (fun x => !(x.id == cid))).find?
      (fun x => x.id == cid) = none :=
    find?_filter_out (fun x : ClientRec => x.id == cid) reg
  unfold cwc_client_state_destroy
  rw [hfind]
  refine ⟨?_, hnone, ?_⟩
  · simp only [List.length_append, List.length_map]
    omega
  · simp only [hnone]

/-- Claim C4, witness: a registry holding one client with two surfaces, one
buffer and one pool; its disconnect emits four notifications, removes the
entry, and is idempotent. -/
theorem C4_client_disconnect_cascade_witness :
    (cwc_client_state_destroy [⟨7, [100, 101], [200], [300]⟩] 7).2.length
      = 2 + 1 + 1 ∧
    (cwc_client_state_destroy [⟨7, [100, 101], [200], [300]⟩] 7).1.find?
        (fun x => x.id == 7) = none ∧
    cwc_client_state_destroy
        (cwc_client_state_destroy [⟨7, [100, 101], [200], [300]⟩] 7).1 7
      = ((cwc_client_state_destroy [⟨7, [100, 101], [200], [300]⟩] 7).1, []) :=
  C4_client_disconnect_cascade [⟨7, [100, 101], [200], [300]⟩] 7
    ⟨7, [100, 101], [200], [300]⟩ (by decide)

/-- Surface record, after struct cwc_surface (include/compositor.h:7-28):
the `mapped` flag, the committed (current) buffer reference — the struct's
`buffer` field — and the pending attach of the double-buffered
attach/commit protocol. -/
structure CSurface where
  id : Nat
  mapped : Bool
  hasPending : Bool
  pending : Option Nat
  current : Option Nat
  deriving DecidableEq, Repr

/-- A buffer as the surface subsystem sees it: its busy flag
(cwc_shm_buffer.busy, include/shm.h:38). -/
structure CBuffer where
  id : Nat
  busy : Bool
  deriving DecidableEq, Repr

/-- State of the surface subsystem: the surfaces, the buffers they can
attach, and a fresh-id counter. -/
structure CompState where
  surfaces : List CSurface
  buffers : List CBuffer
  nextId : Nat
  deriving DecidableEq, Repr

/-- Surface lookup by id. -/
def getSurface (st : CompState) (sid : Nat) : Option CSurface :=
  st.surfaces.find? (fun x => x.id == sid)

/-- Buffer lookup by id. -/
def getBuffer (st : CompState) (bid : Nat) : Option CBuffer :=
  st.buffers.find? (fun x => x.id == bid)

/-- Modelled from the spec: `cwc_surface_attach` (declared at
include/compositor.h:48-49, implementation absent). Stores the pending
buffer reference (possibly null); nothing takes effect until commit. -/
def cwc_surface_attach (st : CompState) (sid : Nat) (buf : Option Nat) :
    CompState :=
  { st with surfaces := st.surfaces.map (fun x =>
      if x.id == sid then { x with pending := buf, hasPending := true } else x) }

/-- Modelled from the spec: `release_buffer`, the renderer's release path
(the busy flag of include/shm.h:38): clears the buffer's busy flag. -/
def cwc_buffer_release (st : CompState) (bid : Nat) : CompState :=
  { st with buffers := st.buffers.map (fun x =>
      if x.id == bid then { x with busy := false } else x) }

/-- Marking the newly committed buffer busy. -/
def markBufferBusy (st : CompState) (bid : Nat) : CompState :=
  { st with buffers := st.buffers.map (fun x =>
      if x.id == bid then { x with busy := true } else x) }

/-- The surface-side effect of a commit with a pending attach: promote
pending to current, update `mapped` (mapped iff the committed buffer is
non-null), and clear the pending slot. -/
def commitSurfaces (st : CompState) (sid : Nat) (s : CSurface) : CompState :=
  { st with surfaces := st.surfaces.map (fun x =>
    if x.id == sid then
      { x with current := s.pending, mapped := s.pending.isSome,
               hasPending := false, pending := none }
    else x) }

/-- The core of a commit with a pending attach: the surface-side promotion,
then marking the newly committed buffer (if any) busy. -/
def commitCore (st : CompState) (sid : Nat) (s : CSurface) : CompState :=
  match s.pending with
  | some nb => markBufferBusy (commitSurfaces st sid s) nb
  | none => commitSurfaces st sid s

/-- Modelled from the spec: `cwc_surface_commit` (declared at
include/compositor.h:47, implementation absent). With a pending attach:
promotes pending to current, marks the new current buffer busy, releases the
previous current buffer when it differs from the newly committed one, and
updates `mapped` per the surface state machine. Without a pending attach the
commit is a legal no-op refresh. -/
def cwc_surface_commit (st : CompState) (sid : Nat) : CompState :=
  match getSurface st sid with
  | none => st
  | some s =>
    if s.hasPending then
      match s.current with
      | some ob =>
        if s.pending == some ob then commitCore st sid s
        else cwc_buffer_release (commitCore st sid s) ob
      | none => commitCore st sid s
    else st

/-- Modelled from the spec: `cwc_surface_create` (declared at
include/compositor.h:45, implementation absent); a fresh surface starts
unmapped with no buffer attached. -/
def cwc_surface_create (st : CompState) : CompState :=
  { st with surfaces := ⟨st.nextId, false, false, none, none⟩ :: st.surfaces,
            nextId := st.nextId + 1 }

/-- Protocol events against the surface subsystem. -/
inductive CompEvent where
  | createSurface
  | attach (sid : Nat) (buf : Option Nat)
  | commit (sid : Nat)
  | releaseBuffer (bid : Nat)
  deriving DecidableEq, Repr

/-- One step of the surface subsystem. -/
def compStep (st : CompState) : CompEvent → CompState
  | .createSurface => cwc_surface_create st
  | .attach sid buf => cwc_surface_attach st sid buf
  | .commit sid => cwc_surface_commit st sid
  | .releaseBuffer bid => cwc_buffer_release st bid

/-- Running a list of surface events from a state. -/
def compRun (st : CompState) (es : List CompEvent) : CompState :=
  es.foldl compStep st

/-- Whether an event, taken in the given state, is a commit that promotes a
non-null pending attach of the given surface (a "mapping commit"). -/
def isMapCommit (st : CompState) (e : CompEvent) (sid : Nat) : Bool :=
  match e, getSurface st sid with
  | .commit tid, some s => tid == sid && s.hasPending && s.pending.isSome
  | _, _ => false

/-- Whether a trace contains a mapping commit for the given surface. -/
def mapCommitIn : CompState → List CompEvent → Nat → Bool
  | _, [], _ => false
  | st, e :: es, sid => isMapCommit st e sid || mapCommitIn (compStep st e) es sid

/-- Attaching commutes with surface lookup. -/
lemma getSurface_attach (st : CompState) (sid tid : Nat) (buf : Option Nat) :
    getSurface (cwc_surface_attach st tid buf) sid
      = (getSurface st sid).map (fun x =>
          if x.id == tid then { x with pending := buf, hasPending := true }
          else x) := by
  unfold getSurface cwc_surface_attach
  exact find?_map_pred_inv (fun x => x.id == sid)
    (fun x => if x.id == tid then { x with pending := buf, hasPending := true }
      else x)
    (fun x => by dsimp only; split <;> simp) st.surfaces

/-- The surface-side commit promotion commutes with surface lookup. -/
lemma getSurface_commitSurfaces (st : CompState) (sid tid : Nat) (s : CSurface) :
    getSurface (commitSurfaces st tid s) sid
      = (getSurface st sid).map (fun x =>
          if x.id == tid then
            { x with current := s.pending, mapped := s.pending.isSome,
                     hasPending := false, pending := none }
          else x) := by
  unfold getSurface commitSurfaces
  exact find?_map_pred_inv (fun x => x.id == sid)
    (fun x => if x.id == tid then
        { x with current := s.pending, mapped := s.pending.isSome,
                 hasPending := false, pending := none }
      else x)
    (fun x => by dsimp only; split <;> simp) st.surfaces

/-- Marking a buffer busy does not touch surfaces. -/
lemma getSurface_markBufferBusy (st : CompState) (sid bid : Nat) :
    getSurface (markBufferBusy st bid) sid = getSurface st sid := rfl

/-- Releasing a buffer does not touch surfaces. -/
lemma getSurface_release (st : CompState) (sid bid : Nat) :
    getSurface (cwc_buffer_release st bid) sid = getSurface st sid := rfl

/-- The commit core changes surfaces exactly as the surface-side promotion
does. -/
lemma getSurface_commitCore (st : CompState) (sid tid : Nat) (s : CSurface) :
    getSurface (commitCore st tid s) sid
      = getSurface (commitSurfaces st tid s) sid := by
  unfold commitCore
  cases hp : s.pending with
  | none => rfl
  | some nb => rw [getSurface_markBufferBusy]

/-- Buffer release commutes with buffer lookup. -/
lemma getBuffer_release (st : CompState) (bid rid : Nat) :
    getBuffer (cwc_buffer_release st rid) bid
      = (getBuffer st bid).map (fun x =>
          if x.id == rid then { x with busy := false } else x) := by
  unfold getBuffer cwc_buffer_release
  exact find?_map_pred_inv (fun x => x.id == bid)
    (fun x => if x.id == rid then { x with busy := false } else x)
    (fun x => by dsimp only; split <;> simp) st.buffers

/-- Marking a buffer busy commutes with buffer lookup. -/
lemma getBuffer_markBufferBusy (st : CompState) (bid mid : Nat) :
    getBuffer (markBufferBusy st mid) bid
      = (getBuffer st bid).map (fun x =>
          if x.id == mid then { x with busy := true } else x) := by
  unfold getBuffer markBufferBusy
  exact find?_map_pred_inv (fun x => x.id == bid)
    (fun x => if x.id == mid then { x with busy := true } else x)
    (fun x => by dsimp only; split <;> simp) st.buffers

/-- Attach does not touch buffers. -/
lemma getBuffer_attach (st : CompState) (bid tid : Nat) (buf : Option Nat) :
    getBuffer (cwc_surface_attach st tid buf) bid = getBuffer st bid := rfl

/-- The surface-side commit promotion does not touch buffers. -/
lemma getBuffer_commitSurfaces (st : CompState) (bid tid : Nat) (s : CSurface) :
    getBuffer (commitSurfaces st tid s) bid = getBuffer st bid := rfl

/-- Buffer lookup after a commit core that commits a non-null buffer: the
committed buffer is marked busy. -/
lemma getBuffer_commitCore (st : CompState) (tid bid : Nat) (s : CSurface)
    (nb : Nat) (hp : s.pending = some nb) :
    getBuffer (commitCore st tid s) bid
      = (getBuffer st bid).map (fun x =>
          if x.id == nb then { x with busy := true } else x) := by
  unfold commitCore
  simp only [hp]
  rw [getBuffer_markBufferBusy, getBuffer_commitSurfaces]

/-- A commit on a surface whose pending flag is set reduces to the commit
core, preceded — when the previous current buffer differs from the newly
committed one — by its release. -/
lemma commit_of_pending (st : CompState) (sid : Nat) (s : CSurface)
    (hs : getSurface st sid = some s) (hp : s.hasPending = true) :
    cwc_surface_commit st sid
      = (match s.current with
         | some ob =>
           if s.pending == some ob then commitCore st sid s
           else cwc_buffer_release (commitCore st sid s) ob
         | none => commitCore st sid s) := by
  unfold cwc_surface_commit
  rw [hs]
  simp [hp]

/-- Claim C3: for any surface and buffer in the state, after
`attach(surface, buf)` followed by `commit(surface)` the surface's current
buffer is `buf` and `buf.busy` is true; after a subsequent
`release_buffer(buf)`, `buf.busy` is false. -/
theorem C3_attach_commit_release (st : CompState) (sid bid : Nat)
    (s : CSurface) (b : CBuffer)
    (hs : getSurface st sid = some s) (hb : getBuffer st bid = some b) :
    ((getSurface (cwc_surface_commit (cwc_surface_attach st sid (some bid)) sid)
        sid).map (fun x => x.current) = some (some bid)) ∧
    ((getBuffer (cwc_surface_commit (cwc_surface_attach st sid (some bid)) sid)
        bid).map (fun x => x.busy) = some true) ∧
    ((getBuffer (cwc_buffer_release
        (cwc_surface_commit (cwc_surface_attach st sid (some bid)) sid) bid)
        bid).map (fun x => x.busy) = some false) := by
  have hs' : st.surfaces.find? (fun x => x.id == sid) = some s := hs
  have hb' : st.buffers.find? (fun x => x.id == bid) = some b := hb
  have hsid : (s.id == sid) = true := by
    have := List.find?_some hs'
    simpa using this
  have hbid : (b.id == bid) = true := by
    have := List.find?_some hb'
    simpa using this
  have hseq : s.id = sid := by simpa using hsid
  have hbeq : b.id = bid := by simpa using hbid
  have h1 : getSurface (cwc_surface_attach st sid (some bid)) sid
      = some ⟨s.id, s.mapped, true, some bid, s.current⟩ := by
    rw [getSurface_attach, hs]
    simp [hseq]
  have h2 := commit_of_pending (cwc_surface_attach st sid (some bid)) sid
      ⟨s.id, s.mapped, true, some bid, s.current⟩ h1 rfl
  dsimp only at h2
  cases hcur : s.current with
  | none =>
    rw [hcur] at h1 h2
    dsimp only at h2
    refine ⟨?_, ?_, ?_⟩
    · rw [h2, getSurface_commitCore, getSurface_commitSurfaces, h1]
      simp [hseq]
    · rw [h2, getBuffer_commitCore _ _ _ _ bid rfl, getBuffer_attach, hb]
      simp [hbeq]
    · rw [getBuffer_release, h2, getBuffer_commitCore _ _ _ _ bid rfl,
        getBuffer_attach, hb]
      simp [hbeq]
  | some ob =>
    rw [hcur] at h1 h2
    dsimp only at h2
    by_cases hob : bid = ob
    · have hsome : ((some bid : Option Nat) == some ob) = true := by
        simp [hob]
      rw [if_pos hsome] at h2
      refine ⟨?_, ?_, ?_⟩
      · rw [h2, getSurface_commitCore, getSurface_commitSurfaces, h1]
        simp [hseq]
      · rw [h2, getBuffer_commitCore _ _ _ _ bid rfl, getBuffer_attach, hb]
        simp [hbeq]
      · rw [getBuffer_release, h2, getBuffer_commitCore _ _ _ _ bid rfl,
          getBuffer_attach, hb]
        simp [hbeq]
    · have hsome : ((some bid : Option Nat) == some ob) = false := by
        simp only [beq_eq_false_iff_ne, ne_eq]
        intro h
        exact hob (Option.some.inj h)
      rw [hsome] at h2
      simp only [Bool.false_eq_true, if_false] at h2
      have hbo : ¬ b.id = ob := by
        rw [hbeq]
        exact hob
      refine ⟨?_, ?_, ?_⟩
      · rw [h2, getSurface_release, getSurface_commitCore,
          getSurface_commitSurfaces, h1]
        simp [hseq]
      · rw [h2, getBuffer_release, getBuffer_commitCore _ _ _ _ bid rfl,
          getBuffer_attach, hb]
        simp [hbeq, hbo, hob]
      · rw [getBuffer_release, h2, getBuffer_release,
          getBuffer_commitCore _ _ _ _ bid rfl, getBuffer_attach, hb]
        simp [hbeq, hbo, hob]

/-- Claim C3, witness: one fresh surface and one idle buffer; attach then
commit makes the buffer current and busy, a release clears busy. -/
theorem C3_attach_commit_release_witness :
    ((getSurface (cwc_surface_commit (cwc_surface_attach
        ⟨[⟨0, false, false, none, none⟩], [⟨5, false⟩], 1⟩ 0 (some 5)) 0)
        0).map (fun x => x.current) = some (some 5)) ∧
    ((getBuffer (cwc_surface_commit (cwc_surface_attach
        ⟨[⟨0, false, false, none, none⟩], [⟨5, false⟩], 1⟩ 0 (some 5)) 0)
        5).map (fun x => x.busy) = some true) ∧
    ((getBuffer (cwc_buffer_release (cwc_surface_commit (cwc_surface_attach
        ⟨[⟨0, false, false, none, none⟩], [⟨5, false⟩], 1⟩ 0 (some 5)) 0) 5)
        5).map (fun x => x.busy) = some false) :=
  C3_attach_commit_release ⟨[⟨0, false, false, none, none⟩], [⟨5, false⟩], 1⟩
    0 5 ⟨0, false, false, none, none⟩ ⟨5, false⟩ (by decide) (by decide)

/-- Surface lookup after creating a fresh surface. -/
lemma getSurface_create (st : CompState) (sid : Nat) :
    getSurface (cwc_surface_create st) sid
      = if (st.nextId == sid) = true
        then some ⟨st.nextId, false, false, none, none⟩
        else getSurface st sid := by
  unfold getSurface cwc_surface_create
  dsimp only
  by_cases h : (st.nextId == sid) = true
  · rw [List.find?_cons_of_pos _ (by simpa using h), if_pos h]
  · rw [List.find?_cons_of_neg _ (by simpa using h), if_neg h]

/-- A commit without a pending attach is a no-op. -/
lemma commit_no_pending (st : CompState) (tid : Nat) (s0 : CSurface)
    (hg : getSurface st tid = some s0) (hp : s0.hasPending = false) :
    cwc_surface_commit st tid = st := by
  unfold cwc_surface_commit
  rw [hg]
  simp [hp]

/-- Surface lookup after a commit with a pending attach: every surface with
the committed id is promoted, every other surface is untouched. -/
lemma getSurface_commit_pending (st : CompState) (tid sid : Nat)
    (s0 : CSurface) (hg : getSurface st tid = some s0)
    (hp : s0.hasPending = true) :
    getSurface (cwc_surface_commit st tid) sid
      = (getSurface st sid).map (fun x =>
          if x.id == tid then
            { x with current := s0.pending, mapped := s0.pending.isSome,
                     hasPending := false, pending := none }
          else x) := by
  rw [commit_of_pending st tid s0 hg hp]
  cases hc : s0.current with
  | none => rw [getSurface_commitCore, getSurface_commitSurfaces]
  | some ob =>
    dsimp only
    by_cases hbo : (s0.pending == some ob) = true
    · rw [if_pos hbo, getSurface_commitCore, getSurface_commitSurfaces]
    · rw [if_neg hbo, getSurface_release, getSurface_commitCore,
        getSurface_commitSurfaces]

/-- If a surface is mapped after one step, either that step was a commit
promoting a non-null pending attach on it, or it was already mapped. -/
lemma mapped_after_step (st : CompState) (e : CompEvent) (sid : Nat)
    (s' : CSurface) (hafter : getSurface (compStep st e) sid = some s')
    (hm : s'.mapped = true) :
    isMapCommit st e sid = true
    ∨ ∃ s, getSurface st sid = some s ∧ s.mapped = true := by
  cases e with
  | createSurface =>
    right
    have hafter' : getSurface (cwc_surface_create st) sid = some s' := hafter
    rw [getSurface_create] at hafter'
    by_cases h : (st.nextId == sid) = true
    · rw [if_pos h] at hafter'
      have he : (⟨st.nextId, false, false, none, none⟩ : CSurface) = s' := by
        simpa using hafter'
      rw [← he] at hm
      simp at hm
    · rw [if_neg h] at hafter'
      exact ⟨s', hafter', hm⟩
  | attach tid buf =>
    right
    have hafter' : getSurface (cwc_surface_attach st tid buf) sid = some s' :=
      hafter
    rw [getSurface_attach] at hafter'
    cases hg : getSurface st sid with
    | none => rw [hg] at hafter'; simp at hafter'
    | some sx =>
      rw [hg] at hafter'
      have he : (if sx.id == tid
          then { sx with pending := buf, hasPending := true } else sx) = s' := by
        simpa using hafter'
      subst he
      refine ⟨sx, rfl, ?_⟩
      by_cases h : (sx.id == tid) = true
      · rw [if_pos h] at hm
        simpa using hm
      · rw [if_neg h] at hm
        exact hm
  | commit tid =>
    have hafter' : getSurface (cwc_surface_commit st tid) sid = some s' := hafter
    cases hg : getSurface st tid with
    | none =>
      right
      have h0 : cwc_surface_commit st tid = st := by
        unfold cwc_surface_commit
        rw [hg]
      rw [h0] at hafter'
      exact ⟨s', hafter', hm⟩
    | some s0 =>
      by_cases hp : s0.hasPending = true
      · rw [getSurface_commit_pending st tid sid s0 hg hp] at hafter'
        cases hg2 : getSurface st sid with
        | none => rw [hg2] at hafter'; simp at hafter'
        | some sx =>
          rw [hg2] at hafter'
          have he : (if sx.id == tid then
              { sx with current := s0.pending, mapped := s0.pending.isSome,
                        hasPending := false, pending := none }
            else sx) = s' := by
            simpa using hafter'
          subst he
          by_cases hxt : (sx.id == tid) = true
          · left
            rw [if_pos hxt] at hm
            have hm' : s0.pending.isSome = true := by simpa using hm
            have hsx : (sx.id == sid) = true := by
              have := List.find?_some
                (show st.surfaces.find? (fun x => x.id == sid) = some sx from hg2)
              simpa using this
            have htid : tid = sid := by
              have e1 : sx.id = tid := by simpa using hxt
              have e2 : sx.id = sid := by simpa using hsx
              omega
            subst htid
            have hse : s0 = sx := Option.some.inj (hg.symm.trans hg2)
            subst hse
            unfold isMapCommit
            rw [hg]
            simp [hp, hm']
          · right
            rw [if_neg hxt] at hm
            exact ⟨sx, rfl, hm⟩
      · right
        have hp' : s0.hasPending = false := by simpa using hp
        rw [commit_no_pending st tid s0 hg hp'] at hafter'
        exact ⟨s', hafter', hm⟩
  | releaseBuffer bid =>
    right
    exact ⟨s', hafter, hm⟩

/-- A surface mapped after a run was either mapped at the start of the run
or the run contains a mapping commit for it. -/
lemma mapped_requires_commit (es : List CompEvent) :
    ∀ (st : CompState) (sid : Nat) (s' : CSurface),
      getSurface (compRun st es) sid = some s' → s'.mapped = true →
      mapCommitIn st es sid = true
        ∨ ∃ s, getSurface st sid = some s ∧ s.mapped = true := by
  induction es with
  | nil =>
    intro st sid s' h hm
    right
    exact ⟨s', h, hm⟩
  | cons e es ih =>
    intro st sid s' h hm
    have h' : getSurface (compRun (compStep st e) es) sid = some s' := h
    rcases ih (compStep st e) sid s' h' hm with hrec | ⟨s0, h0, hm0⟩
    · left
      unfold mapCommitIn
      simp [hrec]
    · rcases mapped_after_step st e sid s0 h0 hm0 with hhead | hin
      · left
        unfold mapCommitIn
        simp [hhead]
      · right
        exact hin

/-- Claim C7: attaching null then committing on a mapped surface unmaps it;
and starting from a state with no surfaces, a surface can only be mapped
after the trace contains a commit promoting a non-null pending attach for
it. -/
theorem C7_mapped_only_after_commit :
    (∀ (st : CompState) (sid : Nat) (s : CSurface),
      getSurface st sid = some s → s.mapped = true →
      (getSurface (cwc_surface_commit (cwc_surface_attach st sid none) sid)
          sid).map (fun x => x.mapped) = some false) ∧
    (∀ (bufs : List CBuffer) (es : List CompEvent) (sid : Nat) (s' : CSurface),
      getSurface (compRun ⟨[], bufs, 0⟩ es) sid = some s' → s'.mapped = true →
      mapCommitIn ⟨[], bufs, 0⟩ es sid = true) := by
  constructor
  · intro st sid s hs hm
    have hs' : st.surfaces.find? (fun x => x.id == sid) = some s := hs
    have hsid : (s.id == sid) = true := by
      have := List.find?_some hs'
      simpa using this
    have hseq : s.id = sid := by simpa using hsid
    have h1 : getSurface (cwc_surface_attach st sid none) sid
        = some ⟨s.id, s.mapped, true, none, s.current⟩ := by
      rw [getSurface_attach, hs]
      simp [hseq]
    rw [getSurface_commit_pending (cwc_surface_attach st sid none) sid sid
      ⟨s.id, s.mapped, true, none, s.current⟩ h1 rfl, h1]
    simp [hseq]
  · intro bufs es sid s' h hm
    rcases mapped_requires_commit es ⟨[], bufs, 0⟩ sid s' h hm with h1 | ⟨s0, h0, _⟩
    · exact h1
    · simp [getSurface] at h0

/-- Claim C7, witness: a mapped surface attached null then committed becomes
unmapped; and a create/attach/commit trace from the empty state that leaves
surface 0 mapped indeed contains a mapping commit. -/
theorem C7_mapped_only_after_commit_witness :
    ((getSurface (cwc_surface_commit (cwc_surface_attach
        ⟨[⟨0, true, false, none, some 5⟩], [⟨5, true⟩], 1⟩ 0 none) 0)
        0).map (fun x => x.mapped) = some false) ∧
    mapCommitIn ⟨[], [⟨5, false⟩], 0⟩
      [CompEvent.createSurface, CompEvent.attach 0 (some 5),
       CompEvent.commit 0] 0 = true :=
  ⟨C7_mapped_only_after_commit.1
      ⟨[⟨0, true, false, none, some 5⟩], [⟨5, true⟩], 1⟩ 0
      ⟨0, true, false, none, some 5⟩ (by decide) rfl,
   C7_mapped_only_after_commit.2 [⟨5, false⟩]
      [CompEvent.createSurface, CompEvent.attach 0 (some 5),
       CompEvent.commit 0] 0 ⟨0, true, false, none, some 5⟩ (by decide) rfl⟩

end Cwc
